import Mathlib

/-!
Verification of the KSeF desktop client's protocol core (KSeFService and its
database helpers) against its natural-language specification.

The definitions below are a shallow embedding of the TypeScript source:

* JavaScript values that may be `null`/`undefined` are `Option`s, and the
  JS truthiness tests that guard the source are made explicit
  (`truthyStr`, `truthyNum`).
* Every network call is an environment field of type `RemoteResult`:
  `thrown s` models an axios call that rejected (with the optional HTTP
  status of the response attached to the error), `ok d` models a resolved
  call whose `response.data` is `d` (`ok none` = missing/malformed body).
* The wall clock is explicit: `Date.now()` readings are environment fields,
  and the polling loop advances an explicit elapsed-time counter by its
  sleep interval.
* Each service method returns, besides its result, the updated mutable
  fields of the service object and the list of network calls it issued,
  in order.
-/

namespace KSeF

/-- JS truthiness of a possibly absent string: absent and the empty string
are falsy. -/
def truthyStr : Option String → Bool
  | some s => s ≠ ""
  | none => false

/-- JS truthiness of a possibly absent number: absent, `0` and `NaN` are
falsy.  `NaN` is modelled as `some none` is not needed here; numbers are
`Option Int` with `none` for an absent field. -/
def truthyNum : Option Int → Bool
  | some n => n ≠ 0
  | none => false

/-- Rendering of a JS number into a template string; `none` stands for
`NaN` (the result of parsing an unparsable datetime). -/
def jsNumStr : Option Int → String
  | some n => toString n
  | none => "NaN"

/-- Outcome of an axios request: `thrown s` is a rejected promise carrying
the HTTP status of the error response when one exists
(`error.response?.status`), `ok d` is a resolved response whose body is
`d`; `ok none` models an absent or malformed (non-object / wrong shape)
body. -/
inductive RemoteResult (α : Type) : Type
  | thrown (status : Option Nat)
  | ok (d : Option α)
deriving DecidableEq

/-- Network calls issued by the service, in order, with the request data
that matters to the claims. -/
inductive CallEvent : Type
  | certCall
  | challengeCall
  | submitCall (challenge : String) (encryptedToken : String)
  | pollCall
  | redeemCall
  | metadataCall (subjectType : String)
  | detailsCall
deriving DecidableEq

/-- Mutable fields of the `KSeFService` singleton that the modelled
methods read or write.  `tokenExpiration` is `none` for the JS `null`,
`some none` for an Invalid Date (e.g. `new Date(undefined)`), and
`some (some t)` for a valid date with millisecond value `t`. -/
structure KState where
  accessToken : Option String
  tokenExpiration : Option (Option Int)
  ksefToken : Option String
  nip : Option String
  publicKeyCertificate : Option String
deriving DecidableEq

/-- Fresh service object: every field starts as `null`. -/
def initialState : KState :=
  { accessToken := none, tokenExpiration := none, ksefToken := none
    nip := none, publicKeyCertificate := none }

/-- One entry of the `/security/public-key-certificates` response array. -/
structure CertEntry where
  usage : Option (List String)
  certificate : String
deriving DecidableEq

/-- Body of the `/auth/challenge` response. -/
structure ChallengeResp where
  challenge : Option String
  timestampMs : Option Int
  timestamp : Option String
deriving DecidableEq

/-- Result of `getChallenge`: the challenge string together with the
millisecond timestamp (`none` = `NaN`). -/
structure ChallengeData where
  challenge : String
  timestampMs : Option Int
deriving DecidableEq

/-- A `token` / `validUntil` pair as returned inside the submit and redeem
response bodies. -/
structure TokenObj where
  token : Option String
  validUntil : Option String
deriving DecidableEq

/-- Body of the `POST /auth/ksef-token` (submit) response. -/
structure SubmitResp where
  referenceNumber : Option String
  authenticationToken : Option TokenObj
deriving DecidableEq

/-- Body of one `GET /auth/:referenceNumber` status poll: the `status`
object's `code` field (`none` = `code` absent). The enclosing
`response.data`/`status` presence is folded into the `RemoteResult`'s
`ok none`. -/
structure PollStatus where
  code : Option Int
deriving DecidableEq

/-- Body of the `POST /auth/token/redeem` response. -/
structure RedeemResp where
  accessToken : Option TokenObj
deriving DecidableEq

/-- Abstract interface to the Node `crypto` primitives used by
`encryptTokenWithChallenge`.  `pemWrap` is the deterministic base64 →
PEM-certificate reformatting, `parseCert` is `crypto.createPublicKey`
(`none` when it throws), `rsaOaepSha256` is `crypto.publicEncrypt` with
`RSA_PKCS1_OAEP_PADDING` and `oaepHash: sha256` applied to the UTF-8 bytes
of the plaintext, and `toBase64` is `Buffer.toString(base64)`. -/
structure CryptoBackend where
  pemWrap : String → String
  parseCert : String → Option String
  rsaOaepSha256 : String → String → List Nat
  toBase64 : List Nat → String

/-- The stored configuration row as read by `getConfig()`. -/
structure Config where
  auth_method : String
  token : Option String
deriving DecidableEq

/-- Environment of one run of the authentication flow: the stored config,
the response of each endpoint, the local clock and the crypto backend.
`polls i` is the body of the `i`-th status poll; `parseDate` is
`new Date(string).getTime()` with `none` for `NaN`. -/
structure AuthEnv where
  config : Option Config
  certResp : RemoteResult (List CertEntry)
  challengeResp : RemoteResult ChallengeResp
  parseDate : String → Option Int
  localNow : Int
  crypto : CryptoBackend
  submitResp : RemoteResult SubmitResp
  polls : Nat → RemoteResult PollStatus
  redeemResp : RemoteResult RedeemResp

/-- Embedding of `KSeFService.loadPublicKeyCertificate`: fetch the
certificate list, prefer an entry whose `usage` contains
`KsefTokenEncryption`, fall back to the first entry, fail on an empty or
malformed list or a request error. -/
def loadPublicKeyCertificate (env : AuthEnv) (st : KState) :
    Bool × KState × List CallEvent :=
  match env.certResp with
  | .thrown _ => (false, st, [.certCall])
  | .ok none => (false, st, [.certCall])
  | .ok (some certs) =>
    if certs.isEmpty then (false, st, [.certCall])
    else
      match certs.find? (fun c => (c.usage.getD []).contains "KsefTokenEncryption") with
      | some c =>
        (true, { st with publicKeyCertificate := some c.certificate }, [.certCall])
      | none =>
        (true, { st with publicKeyCertificate := some ((certs.headD ⟨none, ""⟩).certificate) },
          [.certCall])

/-- Embedding of `KSeFService.getChallenge`: returns the challenge and a
millisecond timestamp taken from `timestampMs` when that field is truthy,
else from parsing the ISO `timestamp` field when truthy, else — as the
source's explicit fallback — from the local clock (`Date.now()`). Returns
`none` (the source's `null`) when the request fails or the body has no
truthy `challenge`. -/
def getChallenge (env : AuthEnv) : Option ChallengeData × List CallEvent :=
  match env.challengeResp with
  | .thrown _ => (none, [.challengeCall])
  | .ok none => (none, [.challengeCall])
  | .ok (some r) =>
    if truthyStr r.challenge then
      let tms : Option Int :=
        if truthyNum r.timestampMs then r.timestampMs
        else if truthyStr r.timestamp then env.parseDate (r.timestamp.getD "")
        else some env.localNow
      (some { challenge := r.challenge.getD "", timestampMs := tms }, [.challengeCall])
    else (none, [.challengeCall])

/-- Embedding of `KSeFService.encryptTokenWithChallenge`: fails when the
stored token or certificate is missing (falsy) or the certificate fails to
parse; otherwise encrypts the plaintext
`ksefToken ++ "|" ++ timestampMs` and emits it as base64. -/
def encryptTokenWithChallenge (cb : CryptoBackend) (st : KState)
    (timestampMs : Option Int) : Option String :=
  match st.ksefToken, st.publicKeyCertificate with
  | some tok, some cert =>
    if tok = "" ∨ cert = "" then none
    else
      match cb.parseCert (cb.pemWrap cert) with
      | none => none
      | some pk =>
        some (cb.toBase64 (cb.rsaOaepSha256 pk (tok ++ "|" ++ jsNumStr timestampMs)))
  | _, _ => none

/-- Poll interval of the token-auth status loop (ms). -/
def pollIntervalMs : Nat := 500

/-- Total timeout of the token-auth status loop (ms). -/
def tokenAuthMaxWaitMs : Nat := 5000

/-- Embedding of the `while` loop of `KSeFService.waitForTokenAuthStatus`.
The `i`-th iteration issues poll `i` at elapsed time `t`; requests are
modelled as instantaneous, so `t` advances only by the 500 ms sleep that
follows a non-final response.  Returns the boolean result of the source
together with the number of polls issued.  On a body with status code 200
it succeeds; code 100, a missing status, and any request error (404
included) sleep and retry; any other status code fails; reaching the
5000 ms timeout succeeds optimistically. -/
def waitLoop (polls : Nat → RemoteResult PollStatus) (i t : Nat) : Bool × Nat :=
  if t < tokenAuthMaxWaitMs then
    match polls i with
    | .ok (some ps) =>
      match ps.code with
      | some c =>
        if c = 200 then (true, i + 1)
        else if c = 100 then waitLoop polls (i + 1) (t + pollIntervalMs)
        else (false, i + 1)
      | none => (false, i + 1)
    | .ok none => waitLoop polls (i + 1) (t + pollIntervalMs)
    | .thrown _ => waitLoop polls (i + 1) (t + pollIntervalMs)
  else (true, i)
termination_by tokenAuthMaxWaitMs - t
decreasing_by
  all_goals simp only [pollIntervalMs, tokenAuthMaxWaitMs] at *; omega

/-- Embedding of `KSeFService.waitForTokenAuthStatus` with its default
5000 ms budget. -/
def waitForTokenAuthStatus (polls : Nat → RemoteResult PollStatus) : Bool × Nat :=
  waitLoop polls 0 0

/-- Embedding of `KSeFService.authenticateWithToken` (with
`redeemAccessToken` inlined at its single call site): requires a truthy
stored NIP, submits the challenge and encrypted token, requires a truthy
`authenticationToken` in the submit response (the `referenceNumber` is
read but not validated), polls the status endpoint, then redeems; the
redeem response must carry a truthy `accessToken` object. -/
def authenticateWithToken (env : AuthEnv) (st : KState)
    (challenge encryptedToken : String) : Option TokenObj × List CallEvent :=
  if ¬ truthyStr st.nip then (none, [])
  else
    match env.submitResp with
    | .thrown _ => (none, [.submitCall challenge encryptedToken])
    | .ok none => (none, [.submitCall challenge encryptedToken])
    | .ok (some resp) =>
      match resp.authenticationToken with
      | none => (none, [.submitCall challenge encryptedToken])
      | some _ =>
        let w := waitForTokenAuthStatus env.polls
        let tr := CallEvent.submitCall challenge encryptedToken ::
          List.replicate w.2 CallEvent.pollCall
        if ¬ w.1 then (none, tr)
        else
          match env.redeemResp with
          | .thrown _ => (none, tr ++ [.redeemCall])
          | .ok none => (none, tr ++ [.redeemCall])
          | .ok (some r) =>
            match r.accessToken with
            | none => (none, tr ++ [.redeemCall])
            | some tokObj => (some tokObj, tr ++ [.redeemCall])

/-- Embedding of `KSeFService.authenticateWithKSeF`: certificate →
challenge → encrypt → submit/poll/redeem; on success stores the redeemed
token and its parsed expiry on the service object. -/
def authenticateWithKSeF (env : AuthEnv) (st : KState) :
    Bool × KState × List CallEvent :=
  match loadPublicKeyCertificate env st with
  | (false, st1, tr1) => (false, st1, tr1)
  | (true, st1, tr1) =>
    match getChallenge env with
    | (none, tr2) => (false, st1, tr1 ++ tr2)
    | (some cd, tr2) =>
      match encryptTokenWithChallenge env.crypto st1 cd.timestampMs with
      | none => (false, st1, tr1 ++ tr2)
      | some etok =>
        match authenticateWithToken env st1 cd.challenge etok with
        | (none, tr3) => (false, st1, tr1 ++ tr2 ++ tr3)
        | (some authToken, tr3) =>
          (true,
            { st1 with
              accessToken := authToken.token
              tokenExpiration := some (authToken.validUntil.bind env.parseDate) },
            tr1 ++ tr2 ++ tr3)

/-- Character-level embedding of `String.prototype.split` at the
single-character separator `|`. -/
def splitPipe : List Char → List (List Char)
  | [] => [[]]
  | c :: cs =>
    if c = '|' then [] :: splitPipe cs
    else
      match splitPipe cs with
      | [] => [[c]]
      | p :: ps => (c :: p) :: ps

/-- Character-level embedding of `String.prototype.replace` with the
fixed pattern `nip-` and empty replacement: removes the first (leftmost)
occurrence of `nip-` and leaves the rest unchanged. -/
def stripNip : List Char → List Char
  | 'n' :: 'i' :: 'p' :: '-' :: rest => rest
  | c :: cs => c :: stripNip cs
  | [] => []

/-- The NIP extraction inlined in `KSeFService.initialize`: split the
stored token on `|`; when at least two segments exist, the NIP is the
second segment with the first `nip-` occurrence removed; otherwise no NIP
is extracted. -/
def charExtractNip (token : List Char) : Option (List Char) :=
  let parts := splitPipe token
  if parts.length ≥ 2 then some (stripNip ((parts.get? 1).getD []))
  else none

/-- String-level wrapper of `charExtractNip`. -/
def extractNip (token : String) : Option String :=
  (charExtractNip token.toList).map List.asString

/-- Embedding of `KSeFService.initialize`: load the config; when the auth
method is `token` and a token is stored, remember it, extract the NIP when
the token has at least two pipe-separated segments, and run the
authentication flow. -/
def initService (env : AuthEnv) (st : KState) : Bool × KState × List CallEvent :=
  match env.config with
  | none => (false, st, [])
  | some cfg =>
    if cfg.auth_method = "token" ∧ truthyStr cfg.token then
      let tok := cfg.token.getD ""
      let st1 := { st with ksefToken := some tok }
      let st2 :=
        match charExtractNip tok.toList with
        | some nipChars => { st1 with nip := some nipChars.asString }
        | none => st1
      authenticateWithKSeF env st2
    else (false, st, [])

/-- Embedding of `KSeFService.isInitialized`: a truthy access token whose
expiration is unset or is a valid date lying strictly in the future. -/
def isInitialized (st : KState) (now : Int) : Bool :=
  truthyStr st.accessToken &&
    (match st.tokenExpiration with
     | none => true
     | some none => false
     | some (some e) => decide (now < e))

/-! ## Invoice cache (backend `database.ts`) -/

/-- One row of the `invoices_cache` table, restricted to the columns the
modelled code paths read: the primary key `id` (nullable at runtime, since
the TS caller can pass an undefined id through), the direction `ty`
(column `type`), the serialized invoice `data`, and the write timestamp
`cached_at` (modelled directly as the millisecond value that
`new Date(row.cached_at).getTime()` yields).  The remaining metadata
columns are never read back by the modelled paths and are elided. -/
structure CacheRow where
  id : Option String
  ty : String
  data : String
  cached_at : Int
deriving DecidableEq

/-- The `invoices_cache` table. -/
abbrev DB := List CacheRow

/-- Embedding of `getInvoicesByType` (database.ts): filter by direction,
order by `cached_at` descending, then apply `LIMIT`/`OFFSET`. -/
def getInvoicesByType (db : DB) (ty : String) (limit offset : Nat) : List CacheRow :=
  ((((db.filter (fun r => r.ty = ty)).insertionSort
      (fun a b => b.cached_at ≤ a.cached_at)).drop offset).take limit)

/-- Embedding of `cacheInvoice` (database.ts): `INSERT OR REPLACE` keyed
by the primary key `id` (the secondary `ksef_id` UNIQUE constraint is
elided together with the column). -/
def cacheInvoice (row : CacheRow) (db : DB) : DB :=
  db.filter (fun r => r.id ≠ row.id) ++ [row]

/-! ## Invoice listing (`getReceivedInvoices` / `getSentInvoices`) -/

/-- The fields of one entry of the metadata-query response that
`mapMetadataToInvoice` reads, each optional as at runtime. -/
structure Metadata where
  ksefNumber : Option String
  ksefReferenceNumber : Option String
  invoiceNumber : Option String
  issueDate : Option String
  invoicingDate : Option String
  netAmount : Option Int
  grossAmount : Option Int
  currency : Option String
  sellerName : Option String
  sellerNip : Option String
  buyerName : Option String
deriving DecidableEq

/-- A `name`/`taxId` pair of `KSeFInvoice.seller` / `.buyer`. -/
structure Party where
  name : String
  taxId : String
deriving DecidableEq

/-- The mapped invoice object built by `mapMetadataToInvoice`
(amounts as integers for simplicity of the embedding). -/
structure KSeFInvoice where
  id : Option String
  ksefNumber : Option String
  invoiceNumber : Option String
  number : Option String
  issueDate : Option String
  dueDate : Option String
  amount : Option Int
  netAmount : Option Int
  grossAmount : Option Int
  currency : String
  status : String
  ty : String
  seller : Option Party
  buyer : Option Party
deriving DecidableEq

/-- The JS `a || b` on possibly absent strings: `a` when truthy, else `b`. -/
def jsOrStr (a b : Option String) : Option String :=
  if truthyStr a then a else b

/-- The JS `a || b` on possibly absent numbers: `a` when truthy, else `b`. -/
def jsOrNum (a b : Option Int) : Option Int :=
  if truthyNum a then a else b

/-- Embedding of `KSeFService.mapMetadataToInvoice`. -/
def mapMetadataToInvoice (m : Metadata) (ty : String) : KSeFInvoice :=
  let fallbackKsefNumber := jsOrStr m.ksefReferenceNumber m.ksefNumber
  { id := jsOrStr m.ksefNumber fallbackKsefNumber
    ksefNumber := jsOrStr m.ksefNumber fallbackKsefNumber
    invoiceNumber := m.invoiceNumber
    number := m.invoiceNumber
    issueDate := m.issueDate
    dueDate := jsOrStr m.invoicingDate m.issueDate
    amount := m.grossAmount
    netAmount := m.netAmount
    grossAmount := m.grossAmount
    currency := (jsOrStr m.currency (some "PLN")).getD "PLN"
    status := ty
    ty := ty
    seller :=
      if ty = "received" then
        some { name := (jsOrStr m.sellerName (some "Unknown")).getD "Unknown"
               taxId := m.sellerNip.getD "" }
      else none
    buyer :=
      if ty = "sent" then
        some { name := (jsOrStr m.buyerName (some "Unknown")).getD "Unknown"
               taxId := "" }
      else none }

/-- An element of the list a listing method returns: either the value
`JSON.parse` produced from a cached row's `data` column, or a freshly
mapped invoice object. -/
inductive InvItem : Type
  | js (v : String)
  | fresh (k : KSeFInvoice)
deriving DecidableEq

/-- The `cachedInvoices.map(inv => JSON.parse(inv.data))` expression:
`p` is `JSON.parse` (`none` = it throws); a `none` result models the
exception aborting the whole `map`. -/
def parseRows (p : String → Option String) : List CacheRow → Option (List InvItem)
  | [] => some []
  | r :: rs =>
    match p r.data with
    | none => none
    | some v => (parseRows p rs).map (InvItem.js v :: ·)

/-- Body of the metadata-query response. -/
structure MetaResp where
  invoices : Option (List Metadata)
deriving DecidableEq

/-- Environment of one listing call: the (re-)authentication environment
used if `initialize` must run, the clock readings, `JSON.parse` /
`JSON.stringify`, and the metadata endpoint's response. -/
structure ListEnv where
  auth : AuthEnv
  now : Int
  writeStamp : Int
  parseJson : String → Option String
  stringify : KSeFInvoice → String
  metadataResp : RemoteResult MetaResp

/-- The cache freshness window (5 minutes, in ms). -/
def cacheExpirationMs : Int := 5 * 60 * 1000

/-- The row written for one fetched invoice by the caching loop of the
listing methods (only the modelled columns). -/
def rowOfInvoice (env : ListEnv) (inv : KSeFInvoice) (ty : String) : CacheRow :=
  { id := inv.id, ty := ty, data := env.stringify inv, cached_at := env.writeStamp }

/-- Result of a listing call: the returned list (`none` models an
exception escaping the method), the updated service fields, the updated
cache table, and the network calls issued. -/
abbrev ListResult := Option (List InvItem) × KState × DB × List CallEvent

/-- Embedding of the `catch` block shared (textually duplicated) by
`getReceivedInvoices` and `getSentInvoices`: on a 401 error response the
stored access token is cleared; then the cache is re-read and returned
when non-empty (re-parsing each row — a row whose `data` fails to parse
makes the exception escape), else the empty list is returned.
`errStatus` is `error.response?.status`. -/
def listingCatch (env : ListEnv) (st : KState) (db : DB) (ty : String)
    (limit offset : Nat) (errStatus : Option Nat) (tr : List CallEvent) : ListResult :=
  let st2 := if errStatus = some 401 then { st with accessToken := none } else st
  let cached2 := getInvoicesByType db ty limit offset
  match cached2 with
  | [] => (some [], st2, db, tr)
  | _ =>
    match parseRows env.parseJson cached2 with
    | some items => (some items, st2, db, tr)
    | none => (none, st2, db, tr)

/-- Continuation of a listing call once the service is known (or has just
become) initialized: issue the metadata query; on a thrown error enter the
catch block; on a missing/malformed body return the empty list; otherwise
map each metadata record and cache it best-effort, returning the freshly
mapped list. -/
def listAfterInit (ty subj : String) (env : ListEnv) (st1 : KState) (db : DB)
    (limit offset : Nat) (tr : List CallEvent) : ListResult :=
  match env.metadataResp with
  | .thrown s => listingCatch env st1 db ty limit offset s (tr ++ [.metadataCall subj])
  | .ok none => (some [], st1, db, tr ++ [.metadataCall subj])
  | .ok (some mr) =>
    match mr.invoices with
    | none => (some [], st1, db, tr ++ [.metadataCall subj])
    | some metas =>
      let invoices := metas.map (fun m => mapMetadataToInvoice m ty)
      let db2 := invoices.foldl (fun d inv => cacheInvoice (rowOfInvoice env inv ty) d) db
      (some (invoices.map .fresh), st1, db2, tr ++ [.metadataCall subj])

/-- The initialization guard of a listing call: when `isInitialized`
fails, run `initService`; if that also fails, return the stale cached page
(re-parsing it) or the empty list. -/
def listEnsureInit (ty subj : String) (env : ListEnv) (st : KState) (db : DB)
    (limit offset : Nat) : ListResult :=
  if isInitialized st env.now then listAfterInit ty subj env st db limit offset []
  else
    match initService env.auth st with
    | (true, st1, tr) => listAfterInit ty subj env st1 db limit offset tr
    | (false, st1, tr) =>
      match getInvoicesByType db ty limit offset with
      | [] => (some [], st1, db, tr)
      | cached =>
        match parseRows env.parseJson cached with
        | some items => (some items, st1, db, tr)
        | none => listingCatch env st1 db ty limit offset none tr

/-- Embedding of the common body of `getReceivedInvoices`
(`ty = "received"`, `subj = "Subject2"`) and `getSentInvoices`
(`ty = "sent"`, `subj = "Subject1"`); the two TS methods are textually
identical up to these two constants.  Order of operations follows the
source: cached page lookup and freshness check; service initialization
when needed (returning the stale page, or the empty list, when it fails);
the metadata query; mapping and best-effort caching of the result; and
the catch block on any thrown error. -/
def listInvoicesCore (ty subj : String) (env : ListEnv) (st : KState) (db : DB)
    (limit offset : Nat) : ListResult :=
  let cached := getInvoicesByType db ty limit offset
  match cached.head? with
  | some r0 =>
    if env.now - r0.cached_at < cacheExpirationMs then
      match parseRows env.parseJson cached with
      | some items => (some items, st, db, [])
      | none => listingCatch env st db ty limit offset none []
    else listEnsureInit ty subj env st db limit offset
  | none => listEnsureInit ty subj env st db limit offset

/-- Embedding of `KSeFService.getReceivedInvoices` (Subject2). -/
def getReceivedInvoices (env : ListEnv) (st : KState) (db : DB)
    (limit offset : Nat) : ListResult :=
  listInvoicesCore "received" "Subject2" env st db limit offset

/-- Embedding of `KSeFService.getSentInvoices` (Subject1). -/
def getSentInvoices (env : ListEnv) (st : KState) (db : DB)
    (limit offset : Nat) : ListResult :=
  listInvoicesCore "sent" "Subject1" env st db limit offset

/-! ## Invoice details (`getInvoiceDetails`) -/

/-- Environment of one `getInvoiceDetails` call: the raw (arraybuffer)
response of `GET /invoices/ksef/:id` and the payload extraction
(`extractInvoicePayload`), abstracted as a function from the optional raw
body to the extracted text (`none` = nothing extracted). -/
structure DetailsEnv where
  detailsResp : RemoteResult (List Nat)
  extract : Option (List Nat) → Option String

/-- Embedding of `KSeFService.getInvoiceDetails`: requires a stored access
token; on a request error (any status, 401 included) it only logs and
returns `null`, leaving every service field — the access token included —
unchanged. -/
def getInvoiceDetails (env : DetailsEnv) (st : KState) :
    Option String × KState × List CallEvent :=
  if ¬ truthyStr st.accessToken then (none, st, [])
  else
    match env.detailsResp with
    | .thrown _ => (none, st, [.detailsCall])
    | .ok d =>
      match env.extract d with
      | some payload => if payload = "" then (none, st, [.detailsCall])
                        else (some payload, st, [.detailsCall])
      | none => (none, st, [.detailsCall])

/-! ## Invoice package decoding (`decodeInvoicePackage`) -/

/-- The binary codecs `decodeInvoicePackage` calls into: `b64decode` is
`Buffer.from(s, base64)`, `gunzip` is `zlib.gunzipSync` (`none` = it
throws), `zipEntries` is `unzipper.Open.buffer` returning the contents of
the archive's files (`none` = it throws), `utf8decode` is
`Buffer.toString(utf-8)`. -/
structure Codecs where
  b64decode : String → List Nat
  gunzip : List Nat → Option (List Nat)
  zipEntries : List Nat → Option (List (List Nat))
  utf8decode : List Nat → String

/-- The whitespace characters removed by the JS `String.prototype.trim`
(restricted to the common ASCII ones). -/
def jsWhitespace (c : Char) : Bool :=
  c = ' ' || c = '\t' || c = '\n' || c = '\r'

/-- Embedding of the JS `String.prototype.trim`: drop whitespace from both
ends. -/
def jsTrim (s : String) : String :=
  List.asString (((s.toList.dropWhile jsWhitespace).reverse.dropWhile jsWhitespace).reverse)

/-- Whether the second list starts with the first. -/
def startsWithChars : List Char → List Char → Bool
  | [], _ => true
  | _ :: _, [] => false
  | p :: ps, c :: cs => p = c && startsWithChars ps cs

/-- Embedding of the JS `s.startsWith(pat)`. -/
def jsStartsWith (s pat : String) : Bool :=
  startsWithChars pat.toList s.toList

/-- The `xml.trim().startsWith(<?xml)` test of the source. -/
def startsWithXmlProlog (s : String) : Bool :=
  jsStartsWith (jsTrim s) "<?xml"

/-- Embedding of `KSeFService.decodeInvoicePackage`: base64-decode, then
try gzip (kept only when the text begins with an XML prolog), then the
first zip entry (kept when non-blank), then the plain UTF-8 text (kept
when non-blank), else `null`. -/
def decodeInvoicePackage (c : Codecs) (base64Data : String) : Option String :=
  let buf := c.b64decode base64Data
  let viaGzip : Option String :=
    match c.gunzip buf with
    | some g =>
      let xml := c.utf8decode g
      if startsWithXmlProlog xml then some xml else none
    | none => none
  match viaGzip with
  | some xml => some xml
  | none =>
    let viaZip : Option String :=
      match c.zipEntries buf with
      | some (f :: _) =>
        let xml := c.utf8decode f
        if jsTrim xml ≠ "" then some xml else none
      | _ => none
    match viaZip with
    | some xml => some xml
    | none =>
      let xml := c.utf8decode buf
      if jsTrim xml ≠ "" then some xml else none

/-! ## Refresh timer (`startTokenRefreshTimer` / `stopTokenRefreshTimer`) -/

/-- The part of the runtime relevant to timer multiplicity: the ids of the
interval timers currently installed (`active`), the service's
`refreshTimer` field, and a fresh-id counter standing for `setInterval`
returning a new handle. -/
structure TimerState where
  nextId : Nat
  active : List Nat
  refreshTimer : Option Nat
deriving DecidableEq

/-- Service start-up state: no timer installed. -/
def timerInit : TimerState :=
  { nextId := 0, active := [], refreshTimer := none }

/-- Embedding of `KSeFService.startTokenRefreshTimer`: clear any existing
interval first, then install a fresh one and remember its handle. -/
def startTokenRefreshTimer (s : TimerState) : TimerState :=
  let s1 :=
    match s.refreshTimer with
    | some t => { s with active := s.active.erase t }
    | none => s
  { s1 with
    active := s1.active ++ [s1.nextId]
    refreshTimer := some s1.nextId
    nextId := s1.nextId + 1 }

/-- Embedding of `KSeFService.stopTokenRefreshTimer`: clear the interval
and the handle when one is installed, do nothing otherwise. -/
def stopTokenRefreshTimer (s : TimerState) : TimerState :=
  match s.refreshTimer with
  | some t => { s with active := s.active.erase t, refreshTimer := none }
  | none => s

/-- A call to one of the two timer methods. -/
inductive TimerOp : Type
  | start
  | stop
deriving DecidableEq

/-- Apply one timer call. -/
def timerStep (s : TimerState) : TimerOp → TimerState
  | .start => startTokenRefreshTimer s
  | .stop => stopTokenRefreshTimer s

/-- Run a sequence of start/stop calls from service start-up. -/
def runTimerOps (ops : List TimerOp) : TimerState :=
  ops.foldl timerStep timerInit

/-! ## Auxiliary definitions used by the theorems -/

/-- A poll response on which the token-auth status loop sleeps and
retries: a body without a status object, a status with code 100, or any
request error (404 in particular). -/
def retries : RemoteResult PollStatus → Bool
  | .ok none => true
  | .ok (some ps) => ps.code = some 100
  | .thrown _ => true

/-- Modelled from the spec's words, for comparison with the source's
extraction: the substring after the second pipe delimiter, with the first
`nip-` occurrence removed.  (The source instead takes the segment between
the first and second delimiters.) -/
def specAfterSecondDelim (token : String) : Option String :=
  match splitPipe token.toList with
  | _ :: _ :: rest => some (List.asString (stripNip (List.intercalate ['|'] rest)))
  | _ => none

/-- Trivial crypto backend used to instantiate witnesses. -/
def witCrypto : CryptoBackend :=
  { pemWrap := fun s => s
    parseCert := fun s => some s
    rsaOaepSha256 := fun _ s => s.toList.map Char.toNat
    toBase64 := fun bs => List.asString (bs.map Char.ofNat) }

/-- Inert authentication environment used where a concrete `AuthEnv` is
needed but never exercised. -/
def witAuthEnv : AuthEnv :=
  { config := none
    certResp := .ok none
    challengeResp := .ok none
    parseDate := fun _ => none
    localNow := 0
    crypto := witCrypto
    submitResp := .ok none
    polls := fun _ => .ok none
    redeemResp := .ok none }

/-- Challenge environment whose server response carries a challenge but
no timestamp in either form; the local clock reads 12345. -/
def cexChallengeEnv : AuthEnv :=
  { witAuthEnv with
    challengeResp := .ok (some { challenge := some "abc", timestampMs := none, timestamp := none })
    localNow := 12345 }

/-- Service state with only the NIP set, as after parsing a well-formed
token. -/
def cexNipState : KState :=
  { initialState with nip := some "123" }

/-- Authentication environment whose submit response carries an
`authenticationToken` but no `referenceNumber`, and whose status endpoint
404s forever. -/
def cexSubmitEnv : AuthEnv :=
  { witAuthEnv with
    submitResp := .ok (some
      { referenceNumber := none
        authenticationToken := some { token := some "t", validUntil := none } })
    polls := fun _ => .thrown (some 404)
    redeemResp := .ok (some { accessToken := some { token := some "acc", validUntil := some "2099-01-01" } }) }

/-- Toy instantiation of the binary codecs, faithful to the format facts
the decoder relies on: gzip output is marked with a leading byte 1 and is
not a zip archive, zip output is marked with a leading byte 2 and is not
gzip, text round-trips through UTF-8. -/
def cexCodecs : Codecs :=
  { b64decode := fun s => s.toList.map Char.toNat
    gunzip := fun bs =>
      match bs with
      | 1 :: rest => some rest
      | _ => none
    zipEntries := fun bs =>
      match bs with
      | 2 :: rest => some [rest]
      | _ => none
    utf8decode := fun bs => List.asString (bs.map Char.ofNat) }

/-- The toy base64 text whose decoding is the toy gzip compression of the
prolog-less XML document `<a/>`. -/
def cexGzipInput : String :=
  List.asString (Char.ofNat 1 :: "<a/>".toList)

/-- Access-token-only state used for 401 scenarios. -/
def cexAuthedState : KState :=
  { initialState with accessToken := some "tok" }

/-- Details environment whose invoice fetch rejects with HTTP 401. -/
def cexDetailsEnv : DetailsEnv :=
  { detailsResp := .thrown (some 401)
    extract := fun _ => none }

/-- Cache with a single received row whose serialized data is not valid
JSON (its parse will throw). -/
def cexBadRowDb : DB :=
  [{ id := some "1", ty := "received", data := "x", cached_at := 0 }]

/-- Listing environment for the escaping-exception run: the cached row is
stale, `JSON.parse` fails on its data, and the metadata call rejects with
a transport error. -/
def cexListEnv : ListEnv :=
  { auth := witAuthEnv
    now := 1000000000
    writeStamp := 1000000000
    parseJson := fun s => if s = "x" then none else some s
    stringify := fun _ => "obj"
    metadataResp := .thrown none }

/-- Listing environment for witnesses: parsing always succeeds and the
remote call rejects with HTTP 401. -/
def wit401ListEnv : ListEnv :=
  { auth := witAuthEnv
    now := 1000000000
    writeStamp := 1000000000
    parseJson := fun s => some s
    stringify := fun _ => "obj"
    metadataResp := .thrown (some 401) }

/-- Cache with one received and one sent row, each cached two minutes
before the environment's clock reading. -/
def witFreshDb : DB :=
  [{ id := some "1", ty := "received", data := "d1", cached_at := 999880000 },
   { id := some "2", ty := "sent", data := "d2", cached_at := 999880000 }]

/-- Cache with one stale received and one stale sent row. -/
def witStaleDb : DB :=
  [{ id := some "1", ty := "received", data := "d1", cached_at := 0 },
   { id := some "2", ty := "sent", data := "d2", cached_at := 0 }]

/-- Fully successful authentication environment whose status endpoint
reports 100 three times and then 200. -/
def witFullAuthEnv : AuthEnv :=
  { config := some { auth_method := "token", token := some "ref|nip-123|sec" }
    certResp := .ok (some [{ usage := some ["KsefTokenEncryption"], certificate := "certA" }])
    challengeResp := .ok (some { challenge := some "chal", timestampMs := some 111, timestamp := none })
    parseDate := fun _ => none
    localNow := 0
    crypto := witCrypto
    submitResp := .ok (some
      { referenceNumber := some "refnum"
        authenticationToken := some { token := some "tmp", validUntil := none } })
    polls := fun i =>
      if i < 3 then .ok (some { code := some 100 }) else .ok (some { code := some 200 })
    redeemResp := .ok (some
      { accessToken := some { token := some "acc", validUntil := some "2099-01-01T00:00:00Z" } }) }

/-- State holding the raw token and NIP, as after config parsing. -/
def witTokenState : KState :=
  { initialState with nip := some "123", ksefToken := some "ref|nip-123|sec" }

/-! ## Helper lemmas -/

theorem timer_inv_step (s : TimerState) (op : TimerOp)
    (h : s.active = s.refreshTimer.toList) :
    (timerStep s op).active = (timerStep s op).refreshTimer.toList := by
  cases op with
  | start =>
    cases hr : s.refreshTimer with
    | none => simp [timerStep, startTokenRefreshTimer, hr, h]
    | some t => simp [timerStep, startTokenRefreshTimer, hr, h]
  | stop =>
    cases hr : s.refreshTimer with
    | none => simpa [timerStep, stopTokenRefreshTimer, hr] using h
    | some t => simp [timerStep, stopTokenRefreshTimer, hr, h]

theorem timer_inv_run (ops : List TimerOp) :
    (runTimerOps ops).active = (runTimerOps ops).refreshTimer.toList := by
  have main : ∀ (l : List TimerOp) (s : TimerState),
      s.active = s.refreshTimer.toList →
      (l.foldl timerStep s).active = (l.foldl timerStep s).refreshTimer.toList := by
    intro l
    induction l with
    | nil => intro s h; exact h
    | cons op rest ih => intro s h; exact ih _ (timer_inv_step s op h)
  exact main ops timerInit rfl

theorem loadCert_shape (env : AuthEnv) (st : KState) :
    (loadPublicKeyCertificate env st).2.2 = [CallEvent.certCall] ∧
    ((loadPublicKeyCertificate env st).2.1).nip = st.nip := by
  constructor
  all_goals
    unfold loadPublicKeyCertificate
    repeat' split
  all_goals rfl

theorem getChallenge_trace (env : AuthEnv) :
    (getChallenge env).2 = [CallEvent.challengeCall] := by
  unfold getChallenge
  rcases env.challengeResp with s | d
  · rfl
  · rcases d with _ | r
    · rfl
    · by_cases h : truthyStr r.challenge <;> simp [h]

theorem authToken_no_nip (env : AuthEnv) (st : KState) (ch etok : String)
    (h : ¬ truthyStr st.nip = true) :
    authenticateWithToken env st ch etok = (none, []) := by
  unfold authenticateWithToken
  rw [if_pos h]

theorem authKSeF_no_submit (env : AuthEnv) (st : KState)
    (h : ¬ truthyStr st.nip = true) (ch etok : String) :
    CallEvent.submitCall ch etok ∉ (authenticateWithKSeF env st).2.2 := by
  unfold authenticateWithKSeF
  rcases hl : loadPublicKeyCertificate env st with ⟨b, st1, tr1⟩
  have hsh := loadCert_shape env st
  rw [hl] at hsh
  have htr1 : tr1 = [CallEvent.certCall] := hsh.1
  have hnip1 : st1.nip = st.nip := hsh.2
  cases b with
  | false => simp [htr1]
  | true =>
    rcases hch : getChallenge env with ⟨od, tr2⟩
    have htr2 : tr2 = [CallEvent.challengeCall] := by
      have hg := getChallenge_trace env
      rw [hch] at hg
      exact hg
    rcases od with _ | cd
    · simp [htr1, htr2]
    · rcases he : encryptTokenWithChallenge env.crypto st1 cd.timestampMs with _ | etok2
      · simp [he, htr1, htr2]
      · have hn1 : ¬ truthyStr st1.nip = true := by rw [hnip1]; exact h
        simp [he, authToken_no_nip env st1 cd.challenge etok2 hn1, htr1, htr2]

theorem splitPipe_ne_nil (xs : List Char) : splitPipe xs ≠ [] := by
  cases xs with
  | nil => simp [splitPipe]
  | cons c cs =>
    simp only [splitPipe]
    by_cases h : c = '|'
    · simp [h]
    · simp only [h, if_false]
      rcases hs : splitPipe cs with _ | ⟨p, ps⟩ <;> simp

theorem splitPipe_append (xs ys : List Char) (h : '|' ∉ xs) :
    splitPipe (xs ++ '|' :: ys) = xs :: splitPipe ys := by
  induction xs with
  | nil => simp [splitPipe]
  | cons c cs ih =>
    have hc : ¬ c = '|' := by
      intro e
      exact h (by simp [e])
    have h2 : '|' ∉ cs := fun m => h (List.mem_cons_of_mem _ m)
    simp only [List.cons_append, splitPipe, hc, if_false, List.append_eq]
    rw [ih h2]

theorem splitPipe_no_pipe (xs : List Char) (h : '|' ∉ xs) : splitPipe xs = [xs] := by
  induction xs with
  | nil => simp [splitPipe]
  | cons c cs ih =>
    have hc : ¬ c = '|' := by
      intro e
      exact h (by simp [e])
    have h2 : '|' ∉ cs := fun m => h (List.mem_cons_of_mem _ m)
    simp only [splitPipe, hc, if_false]
    rw [ih h2]

theorem stripNip_nip_front (tid : List Char) :
    stripNip ('n' :: 'i' :: 'p' :: '-' :: tid) = tid := rfl

theorem waitLoop_eq (polls : Nat → RemoteResult PollStatus) (i t : Nat) :
    waitLoop polls i t =
      if t < tokenAuthMaxWaitMs then
        match polls i with
        | .ok (some ps) =>
          match ps.code with
          | some c =>
            if c = 200 then (true, i + 1)
            else if c = 100 then waitLoop polls (i + 1) (t + pollIntervalMs)
            else (false, i + 1)
          | none => (false, i + 1)
        | .ok none => waitLoop polls (i + 1) (t + pollIntervalMs)
        | .thrown _ => waitLoop polls (i + 1) (t + pollIntervalMs)
      else (true, i) := by
  rw [waitLoop]

theorem waitLoop_skip (polls : Nat → RemoteResult PollStatus) (k i t : Nat)
    (hr : ∀ j, j < k → retries (polls (i + j)) = true)
    (ht : ∀ j, j < k → t + pollIntervalMs * j < tokenAuthMaxWaitMs) :
    waitLoop polls i t = waitLoop polls (i + k) (t + pollIntervalMs * k) := by
  induction k generalizing i t with
  | zero => simp
  | succ k ih =>
    have ht0 : t < tokenAuthMaxWaitMs := by simpa using ht 0 (Nat.succ_pos k)
    have hr0 : retries (polls i) = true := by simpa using hr 0 (Nat.succ_pos k)
    have hstep : waitLoop polls i t = waitLoop polls (i + 1) (t + pollIntervalMs) := by
      rw [waitLoop_eq, if_pos ht0]
      rcases hp : polls i with s | d
      · rfl
      · rcases d with _ | ps
        · rfl
        · rcases hc : ps.code with _ | c
          · rw [hp] at hr0
            simp [retries, hc] at hr0
          · have hc100 : c = 100 := by
              rw [hp] at hr0
              simpa [retries, hc] using hr0
            simp [hc, hc100]
    rw [hstep]
    have hrs : ∀ j, j < k → retries (polls (i + 1 + j)) = true := by
      intro j hj
      have := hr (j + 1) (by omega)
      simpa [Nat.add_assoc, Nat.add_comm 1 j] using this
    have hts : ∀ j, j < k → t + pollIntervalMs + pollIntervalMs * j < tokenAuthMaxWaitMs := by
      intro j hj
      have := ht (j + 1) (by omega)
      calc t + pollIntervalMs + pollIntervalMs * j
          = t + pollIntervalMs * (j + 1) := by ring
        _ < tokenAuthMaxWaitMs := this
    rw [ih (i + 1) (t + pollIntervalMs) hrs hts]
    have e1 : i + 1 + k = i + (k + 1) := by omega
    have e2 : t + pollIntervalMs + pollIntervalMs * k = t + pollIntervalMs * (k + 1) := by ring
    rw [e1, e2]

theorem redeem_mem_authToken (env : AuthEnv) (st : KState) (ch etok : String)
    (h : CallEvent.redeemCall ∈ (authenticateWithToken env st ch etok).2) :
    ∃ resp, env.submitResp = RemoteResult.ok (some resp) ∧
      resp.authenticationToken.isSome = true := by
  by_cases hn : truthyStr st.nip = true
  · unfold authenticateWithToken at h
    rw [if_neg (not_not_intro hn)] at h
    rcases hs : env.submitResp with s | d
    · rw [hs] at h
      simp at h
    · rcases d with _ | resp
      · rw [hs] at h
        simp at h
      · rcases hat : resp.authenticationToken with _ | tokObj
        · rw [hs] at h
          simp only [hat] at h
          simp at h
        · exact ⟨resp, rfl, by simp [hat]⟩
  · rw [authToken_no_nip env st ch etok hn] at h
    simp at h

theorem authToken_trace_shape (env : AuthEnv) (st : KState) (ch etok : String)
    (hn : truthyStr st.nip = true) :
    ∃ rest, (authenticateWithToken env st ch etok).2 =
      CallEvent.submitCall ch etok :: rest := by
  unfold authenticateWithToken
  rw [if_neg (not_not_intro hn)]
  rcases env.submitResp with s | d
  · exact ⟨[], rfl⟩
  · rcases d with _ | resp
    · exact ⟨[], rfl⟩
    · rcases hat : resp.authenticationToken with _ | tokObj
      · refine ⟨[], ?_⟩
        simp [hat]
      · by_cases hw : (waitForTokenAuthStatus env.polls).1 = true
        · rcases hrr : env.redeemResp with s2 | d2
          · refine ⟨List.replicate (waitForTokenAuthStatus env.polls).2 CallEvent.pollCall ++
              [CallEvent.redeemCall], ?_⟩
            simp [hat, hw, hrr]
          · rcases d2 with _ | rr
            · refine ⟨List.replicate (waitForTokenAuthStatus env.polls).2 CallEvent.pollCall ++
                [CallEvent.redeemCall], ?_⟩
              simp [hat, hw, hrr]
            · rcases hacc : rr.accessToken with _ | acc
              · refine ⟨List.replicate (waitForTokenAuthStatus env.polls).2 CallEvent.pollCall ++
                  [CallEvent.redeemCall], ?_⟩
                simp [hat, hw, hrr, hacc]
              · refine ⟨List.replicate (waitForTokenAuthStatus env.polls).2 CallEvent.pollCall ++
                  [CallEvent.redeemCall], ?_⟩
                simp [hat, hw, hrr, hacc]
        · refine ⟨List.replicate (waitForTokenAuthStatus env.polls).2 CallEvent.pollCall, ?_⟩
          simp [hat, hw]

theorem authToken_submit_mem (env : AuthEnv) (st : KState) (ch etok : String)
    (hn : truthyStr st.nip = true) :
    CallEvent.submitCall ch etok ∈ (authenticateWithToken env st ch etok).2 := by
  obtain ⟨rest, hrest⟩ := authToken_trace_shape env st ch etok hn
  rw [hrest]
  exact List.mem_cons_self _ _

theorem mem_getInvoicesByType (db : DB) (ty : String) (l o : Nat) (r : CacheRow)
    (h : r ∈ getInvoicesByType db ty l o) : r ∈ db := by
  unfold getInvoicesByType at h
  have h1 := List.mem_of_mem_take h
  have h2 := List.mem_of_mem_drop h1
  have h3 := (List.perm_insertionSort _ _).mem_iff.mp h2
  exact List.mem_of_mem_filter h3

theorem parseRows_isSome (p : String → Option String) (rows : List CacheRow)
    (h : ∀ r ∈ rows, (p r.data).isSome = true) :
    (parseRows p rows).isSome = true := by
  induction rows with
  | nil => rfl
  | cons r rs ih =>
    have hr := h r (List.mem_cons_self r rs)
    rcases hp : p r.data with _ | v
    · rw [hp] at hr
      simp at hr
    · simp only [parseRows, hp]
      have hrest := ih (fun x hx => h x (List.mem_cons_of_mem _ hx))
      rcases hps : parseRows p rs with _ | items
      · rw [hps] at hrest
        simp at hrest
      · simp

theorem listingCatch_isSome (env : ListEnv) (st : KState) (db : DB) (ty : String)
    (limit offset : Nat) (errS : Option Nat) (tr : List CallEvent)
    (h : ∀ r ∈ db, (env.parseJson r.data).isSome = true) :
    (listingCatch env st db ty limit offset errS tr).1.isSome = true := by
  have hpg : (parseRows env.parseJson (getInvoicesByType db ty limit offset)).isSome = true :=
    parseRows_isSome _ _ (fun r hr => h r (mem_getInvoicesByType db ty limit offset r hr))
  unfold listingCatch
  rcases hc : getInvoicesByType db ty limit offset with _ | ⟨x, xs⟩
  · simp
  · rw [hc] at hpg
    rcases hp : parseRows env.parseJson (x :: xs) with _ | items
    · rw [hp] at hpg
      simp at hpg
    · simp [hp]

theorem listAfterInit_isSome (ty subj : String) (env : ListEnv) (st1 : KState) (db : DB)
    (limit offset : Nat) (tr : List CallEvent)
    (h : ∀ r ∈ db, (env.parseJson r.data).isSome = true) :
    (listAfterInit ty subj env st1 db limit offset tr).1.isSome = true := by
  unfold listAfterInit
  repeat' split
  all_goals
    first
      | exact listingCatch_isSome env _ db ty limit offset _ _ h
      | simp

theorem listEnsureInit_isSome (ty subj : String) (env : ListEnv) (st : KState) (db : DB)
    (limit offset : Nat)
    (h : ∀ r ∈ db, (env.parseJson r.data).isSome = true) :
    (listEnsureInit ty subj env st db limit offset).1.isSome = true := by
  unfold listEnsureInit
  repeat' split
  all_goals
    first
      | exact listAfterInit_isSome ty subj env _ db limit offset _ h
      | exact listingCatch_isSome env _ db ty limit offset _ _ h
      | simp

theorem listCore_isSome (ty subj : String) (env : ListEnv) (st : KState) (db : DB)
    (limit offset : Nat)
    (h : ∀ r ∈ db, (env.parseJson r.data).isSome = true) :
    (listInvoicesCore ty subj env st db limit offset).1.isSome = true := by
  have hpg : (parseRows env.parseJson (getInvoicesByType db ty limit offset)).isSome = true :=
    parseRows_isSome _ _ (fun r hr => h r (mem_getInvoicesByType db ty limit offset r hr))
  unfold listInvoicesCore
  dsimp only
  rcases hh : (getInvoicesByType db ty limit offset).head? with _ | r0
  · exact listEnsureInit_isSome ty subj env st db limit offset h
  · by_cases hf : env.now - r0.cached_at < cacheExpirationMs
    · rcases hp : parseRows env.parseJson (getInvoicesByType db ty limit offset) with _ | items
      · rw [hp] at hpg
        simp at hpg
      · simp [hf]
    · have hE := listEnsureInit_isSome ty subj env st db limit offset h
      simpa [hf] using hE

/-! ## Claims -/

/-- C10: at most one refresh timer is ever active: after any sequence of
`startTokenRefreshTimer` / `stopTokenRefreshTimer` calls at most one
interval timer is installed; a stop call leaves none installed; and
stopping twice equals stopping once (stop is idempotent and safe when no
timer was ever started, since `runTimerOps []` starts from no timer). -/
theorem c10_refresh_timer_at_most_one (ops : List TimerOp) :
    (runTimerOps ops).active.length ≤ 1 ∧
    (stopTokenRefreshTimer (runTimerOps ops)).active = [] ∧
    stopTokenRefreshTimer (stopTokenRefreshTimer (runTimerOps ops)) =
      stopTokenRefreshTimer (runTimerOps ops) := by
  have hinv := timer_inv_run ops
  refine ⟨?_, ?_, ?_⟩
  · rw [hinv]
    cases (runTimerOps ops).refreshTimer <;> simp
  · cases hr : (runTimerOps ops).refreshTimer with
    | none =>
      simp only [stopTokenRefreshTimer, hr]
      rw [hinv, hr]
      rfl
    | some t =>
      have ha : (runTimerOps ops).active = [t] := by rw [hinv, hr]; rfl
      simp [stopTokenRefreshTimer, hr, ha]
  · cases hr : (runTimerOps ops).refreshTimer with
    | none => simp [stopTokenRefreshTimer, hr]
    | some t => simp [stopTokenRefreshTimer, hr]

/-- C4: the plaintext submitted to encryption is exactly
`rawToken ++ "|" ++ T`, encrypted via the backend's RSA-OAEP-SHA-256
primitive and emitted as base64; and the step fails (returns the source's
`null`) when the stored credential is missing/falsy, when the certificate
is missing/falsy, or when the certificate cannot be parsed. -/
theorem c4_encrypt_token_plaintext (cb : CryptoBackend) (st : KState)
    (tok cert pk : String) (T : Int)
    (h1 : st.ksefToken = some tok) (h2 : tok ≠ "")
    (h3 : st.publicKeyCertificate = some cert) (h4 : cert ≠ "")
    (h5 : cb.parseCert (cb.pemWrap cert) = some pk) :
    encryptTokenWithChallenge cb st (some T) =
      some (cb.toBase64 (cb.rsaOaepSha256 pk (tok ++ "|" ++ toString T))) ∧
    (∀ st2 : KState, truthyStr st2.ksefToken = false →
      encryptTokenWithChallenge cb st2 (some T) = none) ∧
    (∀ st2 : KState, truthyStr st2.publicKeyCertificate = false →
      encryptTokenWithChallenge cb st2 (some T) = none) ∧
    (∀ (st2 : KState) (tok2 cert2 : String), st2.ksefToken = some tok2 →
      st2.publicKeyCertificate = some cert2 →
      cb.parseCert (cb.pemWrap cert2) = none →
      encryptTokenWithChallenge cb st2 (some T) = none) := by
  refine ⟨?_, ?_, ?_, ?_⟩
  · simp [encryptTokenWithChallenge, h1, h3, h2, h4, h5, jsNumStr]
  · intro st2 h
    cases hk : st2.ksefToken with
    | none => cases hc : st2.publicKeyCertificate <;> simp [encryptTokenWithChallenge, hk, hc]
    | some s =>
      have hs : s = "" := by
        rw [hk] at h
        simpa [truthyStr] using h
      cases hc : st2.publicKeyCertificate <;>
        simp [encryptTokenWithChallenge, hk, hc, hs]
  · intro st2 h
    cases hc : st2.publicKeyCertificate with
    | none => cases hk : st2.ksefToken <;> simp [encryptTokenWithChallenge, hk, hc]
    | some s =>
      have hs : s = "" := by
        rw [hc] at h
        simpa [truthyStr] using h
      cases hk : st2.ksefToken <;>
        simp [encryptTokenWithChallenge, hk, hc, hs]
  · intro st2 tok2 cert2 hk hc hp
    simp only [encryptTokenWithChallenge, hk, hc]
    split
    · rfl
    · rw [hp]

/-- C4 witness: a concrete state and backend on which the success case of
`c4_encrypt_token_plaintext` evaluates. -/
theorem c4_encrypt_token_plaintext_witness :
    encryptTokenWithChallenge witCrypto
      { initialState with ksefToken := some "tokA", publicKeyCertificate := some "certA" }
      (some 777) =
      some (witCrypto.toBase64 (witCrypto.rsaOaepSha256 "certA"
        ("tokA" ++ "|" ++ toString (777 : Int)))) :=
  (c4_encrypt_token_plaintext witCrypto _ "tokA" "certA" "certA" 777 rfl
    (by decide) rfl (by decide) rfl).1

/-- C7 (amended): the gzip round-trip holds for every text that begins
(after trimming) with an XML prolog, and the single-entry-zip round-trip
holds for every text that is non-blank; the hypotheses state that the
input string base64-decodes to the gzip (resp. zip) packaging of the
text's bytes and record the format facts (gzip inflates its own output
and rejects a zip archive). -/
theorem c7_decode_package_roundtrip (c : Codecs) (xml : String)
    (xbytes gzBuf zipBuf : List Nat) (s1 s2 : String)
    (hb1 : c.b64decode s1 = gzBuf) (hg1 : c.gunzip gzBuf = some xbytes)
    (hu : c.utf8decode xbytes = xml)
    (hb2 : c.b64decode s2 = zipBuf) (hg2 : c.gunzip zipBuf = none)
    (hz : c.zipEntries zipBuf = some [xbytes]) :
    (startsWithXmlProlog xml = true → decodeInvoicePackage c s1 = some xml) ∧
    (jsTrim xml ≠ "" → decodeInvoicePackage c s2 = some xml) := by
  constructor
  · intro hp
    simp [decodeInvoicePackage, hb1, hg1, hu, hp]
  · intro ht
    simp [decodeInvoicePackage, hb2, hg2, hz, hu, ht]

/-- C7 witness: both round-trips evaluate on the toy codecs and the
prolog-bearing document. -/
theorem c7_decode_package_roundtrip_witness :
    decodeInvoicePackage cexCodecs
      (List.asString (Char.ofNat 1 :: "<?xml version=1.0?><a/>".toList)) =
      some "<?xml version=1.0?><a/>" ∧
    decodeInvoicePackage cexCodecs
      (List.asString (Char.ofNat 2 :: "<?xml version=1.0?><a/>".toList)) =
      some "<?xml version=1.0?><a/>" :=
  ⟨(c7_decode_package_roundtrip cexCodecs "<?xml version=1.0?><a/>"
      ("<?xml version=1.0?><a/>".toList.map Char.toNat)
      (1 :: "<?xml version=1.0?><a/>".toList.map Char.toNat)
      (2 :: "<?xml version=1.0?><a/>".toList.map Char.toNat)
      (List.asString (Char.ofNat 1 :: "<?xml version=1.0?><a/>".toList))
      (List.asString (Char.ofNat 2 :: "<?xml version=1.0?><a/>".toList))
      (by decide) (by decide) (by decide) (by decide) (by decide) (by decide)).1 (by decide),
   (c7_decode_package_roundtrip cexCodecs "<?xml version=1.0?><a/>"
      ("<?xml version=1.0?><a/>".toList.map Char.toNat)
      (1 :: "<?xml version=1.0?><a/>".toList.map Char.toNat)
      (2 :: "<?xml version=1.0?><a/>".toList.map Char.toNat)
      (List.asString (Char.ofNat 1 :: "<?xml version=1.0?><a/>".toList))
      (List.asString (Char.ofNat 2 :: "<?xml version=1.0?><a/>".toList))
      (by decide) (by decide) (by decide) (by decide) (by decide) (by decide)).2 (by decide)⟩

/-- C7 counterexample: for the prolog-less XML document `<a/>`, the input
whose base64-decoding is the gzip packaging of the document (first two
conjuncts) does not decode back to the document: the gzip branch rejects
it for want of a prolog and the plain-text fallback returns the raw
compressed bytes instead. -/
theorem c7_decode_package_counterexample :
    cexCodecs.gunzip (cexCodecs.b64decode cexGzipInput) =
      some ("<a/>".toList.map Char.toNat) ∧
    cexCodecs.utf8decode ("<a/>".toList.map Char.toNat) = "<a/>" ∧
    decodeInvoicePackage cexCodecs cexGzipInput ≠ some "<a/>" :=
  ⟨by decide, by decide, by decide⟩

/-- C5 (amended): for a well-formed credential
`reference|nip-taxId|secret` the extraction yields the second
pipe-delimited segment — the substring between the first and second
delimiters — with its leading `nip-` removed; a token with fewer than two
segments yields no NIP; and with no NIP stored, authentication never
reaches the submit endpoint. -/
theorem c5_nip_extraction :
    (∀ ref tid sec : List Char, '|' ∉ ref → '|' ∉ tid →
      extractNip (String.mk (ref ++ ('|' :: (('n' :: 'i' :: 'p' :: '-' :: tid) ++ ('|' :: sec))))) =
        some (List.asString tid)) ∧
    (∀ token : List Char, '|' ∉ token → extractNip (String.mk token) = none) ∧
    (∀ (env : AuthEnv) (st : KState) (tokStr : String),
      env.config = some { auth_method := "token", token := some tokStr } →
      tokStr ≠ "" → '|' ∉ tokStr.toList → st.nip = none →
      ∀ ch etok, CallEvent.submitCall ch etok ∉ (initService env st).2.2) := by
  refine ⟨?_, ?_, ?_⟩
  · intro ref tid sec h1 h2
    have h2' : '|' ∉ ('n' :: 'i' :: 'p' :: '-' :: tid) := by
      simp only [List.mem_cons]
      push_neg
      exact ⟨by decide, by decide, by decide, by decide, fun m => h2 m⟩
    show (charExtractNip (String.mk _).toList).map List.asString = _
    have htl : (String.mk (ref ++ ('|' :: (('n' :: 'i' :: 'p' :: '-' :: tid) ++ ('|' :: sec))))).toList
        = ref ++ ('|' :: (('n' :: 'i' :: 'p' :: '-' :: tid) ++ ('|' :: sec))) := rfl
    rw [htl]
    unfold charExtractNip
    rw [splitPipe_append _ _ h1, splitPipe_append _ _ h2']
    simp [stripNip_nip_front]
  · intro token h
    show (charExtractNip (String.mk token).toList).map List.asString = _
    have htl : (String.mk token).toList = token := rfl
    rw [htl]
    unfold charExtractNip
    rw [splitPipe_no_pipe _ h]
    simp
  · intro env st tokStr hcfg hne hnil hnip ch etok
    unfold initService
    rw [hcfg]
    have htk : truthyStr (some tokStr) = true := by simpa [truthyStr] using hne
    have hex : charExtractNip tokStr.toList = none := by
      unfold charExtractNip
      rw [splitPipe_no_pipe _ hnil]
      simp
    simp only [htk, hex, Option.getD_some, and_true, if_true, eq_self_iff_true]
    exact authKSeF_no_submit env { st with ksefToken := some tokStr }
      (by simp [truthyStr, hnip]) ch etok

/-- C5 witness: the well-formed credential `a|nip-123|b` yields NIP `123`
and a delimiter-free token yields none. -/
theorem c5_nip_extraction_witness :
    extractNip (String.mk ("a".toList ++ ('|' :: (('n' :: 'i' :: 'p' :: '-' :: "123".toList) ++ ('|' :: "b".toList))))) =
      some (List.asString "123".toList) ∧
    extractNip (String.mk "nodelims".toList) = none :=
  ⟨c5_nip_extraction.1 "a".toList "123".toList "b".toList (by decide) (by decide),
   c5_nip_extraction.2.1 "nodelims".toList (by decide)⟩

/-- C5 counterexample: on the well-formed credential `a|nip-123|b` the
source's extraction yields `123` (the second segment, after the first
delimiter), while the substring after the second delimiter — the claim's
wording — is `b`. -/
theorem c5_nip_extraction_counterexample :
    extractNip "a|nip-123|b" = some "123" ∧
    specAfterSecondDelim "a|nip-123|b" = some "b" ∧
    ("123" : String) ≠ "b" :=
  ⟨by decide, by decide, by decide⟩

/-- C3: the token-auth status loop polls at a 500 ms interval under a
5000 ms budget (at most 10 polls); any poll error retries (404 included,
via `retries`); the first response whose code is 200 makes the step
succeed at once; the first response whose code is neither 100 nor 200
makes it fail at once; and if every poll within the budget is retryable,
the timeout reports success (proceed to redemption). -/
theorem c3_token_status_polling (polls : Nat → RemoteResult PollStatus) :
    (pollIntervalMs = 500 ∧ tokenAuthMaxWaitMs = 5000) ∧
    (∀ s, retries (RemoteResult.thrown s) = true) ∧
    (∀ k, k < 10 → (∀ j, j < k → retries (polls j) = true) →
      polls k = RemoteResult.ok (some { code := some 200 }) →
      (waitForTokenAuthStatus polls).1 = true) ∧
    (∀ k c, k < 10 → (∀ j, j < k → retries (polls j) = true) →
      polls k = RemoteResult.ok (some { code := some c }) → c ≠ 100 → c ≠ 200 →
      (waitForTokenAuthStatus polls).1 = false) ∧
    ((∀ j, j < 10 → retries (polls j) = true) →
      (waitForTokenAuthStatus polls).1 = true) := by
  refine ⟨⟨rfl, rfl⟩, fun s => rfl, ?_, ?_, ?_⟩
  · intro k hk hr h200
    have hskip := waitLoop_skip polls k 0 0
      (fun j hj => by simpa using hr j hj)
      (fun j hj => by simp only [pollIntervalMs, tokenAuthMaxWaitMs]; omega)
    unfold waitForTokenAuthStatus
    rw [hskip, waitLoop_eq,
      if_pos (by simp only [pollIntervalMs, tokenAuthMaxWaitMs]; omega)]
    simp only [Nat.zero_add]
    rw [h200]
    simp
  · intro k c hk hr hterm hc100 hc200
    have hskip := waitLoop_skip polls k 0 0
      (fun j hj => by simpa using hr j hj)
      (fun j hj => by simp only [pollIntervalMs, tokenAuthMaxWaitMs]; omega)
    unfold waitForTokenAuthStatus
    rw [hskip, waitLoop_eq,
      if_pos (by simp only [pollIntervalMs, tokenAuthMaxWaitMs]; omega)]
    simp only [Nat.zero_add]
    rw [hterm]
    simp [hc100, hc200]
  · intro hr
    have hskip := waitLoop_skip polls 10 0 0
      (fun j hj => by simpa using hr j hj)
      (fun j hj => by simp only [pollIntervalMs, tokenAuthMaxWaitMs]; omega)
    unfold waitForTokenAuthStatus
    rw [hskip, waitLoop_eq,
      if_neg (by simp only [pollIntervalMs, tokenAuthMaxWaitMs]; omega)]

/-- C3 witness: an immediate 200 succeeds; an immediate 450 fails. -/
theorem c3_token_status_polling_witness :
    (waitForTokenAuthStatus (fun _ => RemoteResult.ok (some { code := some 200 }))).1 = true ∧
    (waitForTokenAuthStatus (fun _ => RemoteResult.ok (some { code := some 450 }))).1 = false :=
  ⟨(c3_token_status_polling _).2.2.1 0 (by omega)
      (fun j hj => absurd hj (Nat.not_lt_zero j)) rfl,
   (c3_token_status_polling _).2.2.2.1 0 450 (by omega)
      (fun j hj => absurd hj (Nat.not_lt_zero j)) rfl (by decide) (by decide)⟩

/-- C1 (amended): the get-challenge step returns null exactly when the
request fails or the body lacks a truthy challenge; when a challenge is
present but neither timestamp field is truthy, the step does not fail:
it falls back to the local clock (`Date.now()`), and — with the other
inputs intact — authentication continues to the submit call with the
local-clock reading bound into the encrypted plaintext. -/
theorem c1_challenge_timestamp_fallback (env : AuthEnv) :
    (∀ s, env.challengeResp = RemoteResult.thrown s → (getChallenge env).1 = none) ∧
    (env.challengeResp = RemoteResult.ok none → (getChallenge env).1 = none) ∧
    (∀ r, env.challengeResp = RemoteResult.ok (some r) → truthyStr r.challenge = false →
      (getChallenge env).1 = none) ∧
    (∀ r, env.challengeResp = RemoteResult.ok (some r) → truthyStr r.challenge = true →
      truthyNum r.timestampMs = false → truthyStr r.timestamp = false →
      (getChallenge env).1 =
        some { challenge := r.challenge.getD "", timestampMs := some env.localNow }) ∧
    (∀ (st : KState) (r : ChallengeResp),
      env.challengeResp = RemoteResult.ok (some r) → truthyStr r.challenge = true →
      truthyNum r.timestampMs = false → truthyStr r.timestamp = false →
      (loadPublicKeyCertificate env st).1 = true →
      truthyStr st.nip = true →
      ∀ tok cert pk,
        ((loadPublicKeyCertificate env st).2.1).ksefToken = some tok → tok ≠ "" →
        ((loadPublicKeyCertificate env st).2.1).publicKeyCertificate = some cert → cert ≠ "" →
        env.crypto.parseCert (env.crypto.pemWrap cert) = some pk →
        CallEvent.submitCall (r.challenge.getD "")
            (env.crypto.toBase64 (env.crypto.rsaOaepSha256 pk
              (tok ++ "|" ++ toString env.localNow)))
          ∈ (authenticateWithKSeF env st).2.2) := by
  refine ⟨?_, ?_, ?_, ?_, ?_⟩
  · intro s h
    unfold getChallenge
    rw [h]
  · intro h
    unfold getChallenge
    rw [h]
  · intro r h hch
    unfold getChallenge
    rw [h]
    simp [hch]
  · intro r h hch hms hts
    unfold getChallenge
    rw [h]
    simp [hch, hms, hts]
  · intro st r hres hch hms hts hce hnip tok cert pk htok htokne hcert hcertne hpk
    rcases hl : loadPublicKeyCertificate env st with ⟨b, st1, tr1⟩
    have hb : b = true := by
      have h := hce
      rw [hl] at h
      exact h
    subst hb
    have hsh := loadCert_shape env st
    rw [hl] at hsh
    have htr1 : tr1 = [CallEvent.certCall] := hsh.1
    have hnip1 : st1.nip = st.nip := hsh.2
    have htok1 : st1.ksefToken = some tok := by
      have h := htok
      rw [hl] at h
      exact h
    have hcert1 : st1.publicKeyCertificate = some cert := by
      have h := hcert
      rw [hl] at h
      exact h
    have hgc : getChallenge env =
        (some { challenge := r.challenge.getD "", timestampMs := some env.localNow },
          [CallEvent.challengeCall]) := by
      unfold getChallenge
      rw [hres]
      simp [hch, hms, hts]
    have henc : encryptTokenWithChallenge env.crypto st1 (some env.localNow) =
        some (env.crypto.toBase64 (env.crypto.rsaOaepSha256 pk
          (tok ++ "|" ++ toString env.localNow))) := by
      unfold encryptTokenWithChallenge
      rw [htok1, hcert1]
      simp [htokne, hcertne, hpk, jsNumStr]
    unfold authenticateWithKSeF
    rw [hl]
    simp only [hgc, henc]
    rcases ha : authenticateWithToken env st1 (r.challenge.getD "")
        (env.crypto.toBase64 (env.crypto.rsaOaepSha256 pk
          (tok ++ "|" ++ toString env.localNow))) with ⟨ores, tr3⟩
    have hmem := authToken_submit_mem env st1 (r.challenge.getD "")
      (env.crypto.toBase64 (env.crypto.rsaOaepSha256 pk
        (tok ++ "|" ++ toString env.localNow)))
      (by rw [hnip1]; exact hnip)
    rw [ha] at hmem
    cases ores with
    | none => simp [htr1, hmem]
    | some authToken => simp [htr1, hmem]

/-- C1 witness: on a response with a challenge and no timestamp the step
succeeds with the local clock reading 12345. -/
theorem c1_challenge_timestamp_fallback_witness :
    (getChallenge cexChallengeEnv).1 =
      some { challenge := "abc", timestampMs := some 12345 } := by
  have h := (c1_challenge_timestamp_fallback cexChallengeEnv).2.2.2.1
    { challenge := some "abc", timestampMs := none, timestamp := none }
    rfl (by decide) (by decide) (by decide)
  simpa [cexChallengeEnv, witAuthEnv] using h

/-- C1 counterexample: the claim says the step must fail with
`ChallengeUnavailable` when the response has no server timestamp; on such
a response the source instead succeeds, binding the local clock reading
(`localNow = 12345`) as the timestamp. -/
theorem c1_challenge_timestamp_fallback_counterexample :
    cexChallengeEnv.challengeResp = RemoteResult.ok
      (some { challenge := some "abc", timestampMs := none, timestamp := none }) ∧
    (getChallenge cexChallengeEnv).1 =
      some { challenge := "abc", timestampMs := some cexChallengeEnv.localNow } ∧
    (getChallenge cexChallengeEnv).1 ≠ none :=
  ⟨rfl, by decide, by decide⟩

/-- C2 (amended): a redeem call within the token-auth flow implies the
submit endpoint returned a body carrying an `authenticationToken` object
(its `referenceNumber` and the token's value are not separately
validated), and the submit call opens the trace; on a run whose status
polls report 100, 100, 100 then 200 and whose remaining steps succeed,
authentication succeeds with exactly one redeem call. -/
theorem c2_redeem_after_submit (env : AuthEnv) :
    (∀ (st : KState) (ch etok : String),
      CallEvent.redeemCall ∈ (authenticateWithToken env st ch etok).2 →
      (∃ resp, env.submitResp = RemoteResult.ok (some resp) ∧
        resp.authenticationToken.isSome = true) ∧
      ∃ rest, (authenticateWithToken env st ch etok).2 =
        CallEvent.submitCall ch etok :: rest) ∧
    (∀ st : KState,
      CallEvent.redeemCall ∈ (authenticateWithKSeF env st).2.2 →
      ∃ resp, env.submitResp = RemoteResult.ok (some resp) ∧
        resp.authenticationToken.isSome = true) ∧
    (∀ st : KState,
      (∀ i, i < 3 → env.polls i = RemoteResult.ok (some { code := some 100 })) →
      env.polls 3 = RemoteResult.ok (some { code := some 200 }) →
      truthyStr st.nip = true →
      (loadPublicKeyCertificate env st).1 = true →
      ∀ cd, (getChallenge env).1 = some cd →
      ∀ etok, encryptTokenWithChallenge env.crypto
        ((loadPublicKeyCertificate env st).2.1) cd.timestampMs = some etok →
      ∀ resp tokObj, env.submitResp = RemoteResult.ok (some resp) →
        resp.authenticationToken = some tokObj →
      ∀ rr acc, env.redeemResp = RemoteResult.ok (some rr) → rr.accessToken = some acc →
      (authenticateWithKSeF env st).1 = true ∧
      (authenticateWithKSeF env st).2.2.count CallEvent.redeemCall = 1) := by
  refine ⟨?_, ?_, ?_⟩
  · intro st ch etok hmem
    have hn : truthyStr st.nip = true := by
      by_contra hn
      rw [authToken_no_nip env st ch etok hn] at hmem
      simp at hmem
    exact ⟨redeem_mem_authToken env st ch etok hmem, authToken_trace_shape env st ch etok hn⟩
  · intro st hmem
    unfold authenticateWithKSeF at hmem
    rcases hl : loadPublicKeyCertificate env st with ⟨b, st1, tr1⟩
    rw [hl] at hmem
    have hsh := loadCert_shape env st
    rw [hl] at hsh
    have htr1 : tr1 = [CallEvent.certCall] := hsh.1
    cases b with
    | false =>
      rw [htr1] at hmem
      simp at hmem
    | true =>
      rcases hch : getChallenge env with ⟨od, tr2⟩
      rw [hch] at hmem
      have htr2 : tr2 = [CallEvent.challengeCall] := by
        have hg := getChallenge_trace env
        rw [hch] at hg
        exact hg
      rcases od with _ | cd
      · rw [htr1, htr2] at hmem
        simp at hmem
      · rcases he : encryptTokenWithChallenge env.crypto st1 cd.timestampMs with _ | etok2
        · simp only [he] at hmem
          rw [htr1, htr2] at hmem
          simp at hmem
        · simp only [he] at hmem
          rcases ha : authenticateWithToken env st1 cd.challenge etok2 with ⟨ores, tr3⟩
          rw [ha] at hmem
          have hmem3 : CallEvent.redeemCall ∈ tr3 := by
            cases ores with
            | none =>
              rw [htr1, htr2] at hmem
              simpa using hmem
            | some authToken =>
              rw [htr1, htr2] at hmem
              simpa using hmem
          have := redeem_mem_authToken env st1 cd.challenge etok2 (by rw [ha]; exact hmem3)
          exact this
  · intro st hp1 hp2 hnip hcert cd hcd etok henc resp tokObj hsub hat rr acc hred hacc
    have hw : waitForTokenAuthStatus env.polls = (true, 4) := by
      have hskip := waitLoop_skip env.polls 3 0 0
        (fun j hj => by simp [Nat.zero_add, hp1 j hj, retries])
        (fun j hj => by simp only [pollIntervalMs, tokenAuthMaxWaitMs]; omega)
      unfold waitForTokenAuthStatus
      rw [hskip, waitLoop_eq,
        if_pos (by simp only [pollIntervalMs, tokenAuthMaxWaitMs]; omega)]
      simp only [Nat.zero_add]
      rw [hp2]
      simp
    rcases hl : loadPublicKeyCertificate env st with ⟨b, st1, tr1⟩
    have hb : b = true := by
      have h := hcert
      rw [hl] at h
      exact h
    subst hb
    have hsh := loadCert_shape env st
    rw [hl] at hsh
    have htr1 : tr1 = [CallEvent.certCall] := hsh.1
    have hnip1 : st1.nip = st.nip := hsh.2
    have henc1 : encryptTokenWithChallenge env.crypto st1 cd.timestampMs = some etok := by
      have h := henc
      rw [hl] at h
      exact h
    rcases hch : getChallenge env with ⟨od, tr2⟩
    have hod : od = some cd := by
      have h := hcd
      rw [hch] at h
      exact h
    subst hod
    have htr2 : tr2 = [CallEvent.challengeCall] := by
      have hg := getChallenge_trace env
      rw [hch] at hg
      exact hg
    have hauth : authenticateWithToken env st1 cd.challenge etok =
        (some acc, CallEvent.submitCall cd.challenge etok ::
          (List.replicate 4 CallEvent.pollCall ++ [CallEvent.redeemCall])) := by
      unfold authenticateWithToken
      rw [if_neg (not_not_intro (by rw [hnip1]; exact hnip))]
      rw [hsub]
      simp [hat, hw, hred, hacc]
    unfold authenticateWithKSeF
    rw [hl, hch]
    simp only [henc1, hauth]
    constructor
    · simp
    · simp [htr1, htr2, List.count_append, List.count_cons, List.count_replicate,
        List.count_singleton]

/-- C2 witness: on the fully successful environment with polls
100,100,100,200 the flow succeeds with exactly one redeem call. -/
theorem c2_redeem_after_submit_witness :
    (authenticateWithKSeF witFullAuthEnv witTokenState).1 = true ∧
    (authenticateWithKSeF witFullAuthEnv witTokenState).2.2.count CallEvent.redeemCall = 1 :=
  (c2_redeem_after_submit witFullAuthEnv).2.2 witTokenState
    (fun i hi => by simp [witFullAuthEnv, hi])
    (by decide) (by decide) (by decide)
    { challenge := "chal", timestampMs := some 111 } (by decide)
    "ref|nip-123|sec|111" (by decide)
    { referenceNumber := some "refnum"
      authenticationToken := some { token := some "tmp", validUntil := none } }
    { token := some "tmp", validUntil := none } rfl rfl
    { accessToken := some { token := some "acc", validUntil := some "2099-01-01T00:00:00Z" } }
    { token := some "acc", validUntil := some "2099-01-01T00:00:00Z" } rfl rfl

theorem list401_helper (ty subj : String) (env : ListEnv) (st : KState) (db : DB)
    (limit offset : Nat) (r0 : CacheRow) (items : List InvItem)
    (hhead : (getInvoicesByType db ty limit offset).head? = some r0)
    (hstale : ¬ env.now - r0.cached_at < cacheExpirationMs)
    (hinit : isInitialized st env.now = true)
    (hmeta : env.metadataResp = RemoteResult.thrown (some 401))
    (hparse : parseRows env.parseJson (getInvoicesByType db ty limit offset) = some items) :
    listInvoicesCore ty subj env st db limit offset =
      (some items, { st with accessToken := none }, db, [CallEvent.metadataCall subj]) := by
  unfold listInvoicesCore
  dsimp only
  rcases hc : getInvoicesByType db ty limit offset with _ | ⟨x, xs⟩
  · rw [hc] at hhead
    simp at hhead
  · rw [hc] at hhead hparse
    simp only [List.head?_cons, Option.some.injEq] at hhead
    subst hhead
    simp only [List.head?_cons]
    rw [if_neg hstale]
    unfold listEnsureInit
    rw [if_pos hinit]
    unfold listAfterInit
    simp only [hmeta]
    unfold listingCatch
    dsimp only
    rw [hc]
    simp only [hparse]
    simp

theorem listFresh_helper (ty subj : String) (env : ListEnv) (st : KState) (db : DB)
    (limit offset : Nat) (r0 : CacheRow) (items : List InvItem)
    (hhead : (getInvoicesByType db ty limit offset).head? = some r0)
    (hfresh : env.now - r0.cached_at < cacheExpirationMs)
    (hparse : parseRows env.parseJson (getInvoicesByType db ty limit offset) = some items) :
    listInvoicesCore ty subj env st db limit offset = (some items, st, db, []) := by
  unfold listInvoicesCore
  dsimp only
  rcases hc : getInvoicesByType db ty limit offset with _ | ⟨x, xs⟩
  · rw [hc] at hhead
    simp at hhead
  · rw [hc] at hhead hparse
    simp only [List.head?_cons, Option.some.injEq] at hhead
    subst hhead
    simp only [List.head?_cons]
    rw [if_pos hfresh]
    simp only [hparse]

/-- C2 counterexample: the submit response carries an
`authenticationToken` but no `referenceNumber`; the status polls 404
until the timeout, and the redeem endpoint is called nevertheless —
refuting the claim that redeem is never called before submit has returned
both a reference number and a token. -/
theorem c2_redeem_after_submit_counterexample :
    cexSubmitEnv.submitResp = RemoteResult.ok (some
      { referenceNumber := none
        authenticationToken := some { token := some "t", validUntil := none } }) ∧
    CallEvent.redeemCall ∈ (authenticateWithToken cexSubmitEnv cexNipState "ch" "enc").2 := by
  refine ⟨rfl, ?_⟩
  have hw : waitForTokenAuthStatus
      (fun _ : Nat => (RemoteResult.thrown (some 404) : RemoteResult PollStatus)) = (true, 10) := by
    have hskip := waitLoop_skip (fun _ => RemoteResult.thrown (some 404)) 10 0 0
      (fun j hj => rfl)
      (fun j hj => by simp only [pollIntervalMs, tokenAuthMaxWaitMs]; omega)
    unfold waitForTokenAuthStatus
    rw [hskip, waitLoop_eq,
      if_neg (by simp only [pollIntervalMs, tokenAuthMaxWaitMs]; omega)]
  unfold authenticateWithToken
  simp only [cexSubmitEnv, witAuthEnv, cexNipState, initialState]
  simp [truthyStr, hw]

/-- C6 (amended): an HTTP 401 on the metadata query of either listing
call clears the stored access token (so the session is no longer valid
and the next call re-authenticates) and the stale cached page is returned
instead of an error; `getInvoiceDetails`, by contrast, returns null on a
401 and leaves the session untouched. -/
theorem c6_unauthorized_handling :
    (∀ (env : ListEnv) (st : KState) (db : DB) (limit offset : Nat)
        (r0 : CacheRow) (items : List InvItem),
      (getInvoicesByType db "received" limit offset).head? = some r0 →
      ¬ env.now - r0.cached_at < cacheExpirationMs →
      isInitialized st env.now = true →
      env.metadataResp = RemoteResult.thrown (some 401) →
      parseRows env.parseJson (getInvoicesByType db "received" limit offset) = some items →
      (getReceivedInvoices env st db limit offset).1 = some items ∧
      ((getReceivedInvoices env st db limit offset).2.1).accessToken = none ∧
      ∀ t, isInitialized ((getReceivedInvoices env st db limit offset).2.1) t = false) ∧
    (∀ (env : ListEnv) (st : KState) (db : DB) (limit offset : Nat)
        (r0 : CacheRow) (items : List InvItem),
      (getInvoicesByType db "sent" limit offset).head? = some r0 →
      ¬ env.now - r0.cached_at < cacheExpirationMs →
      isInitialized st env.now = true →
      env.metadataResp = RemoteResult.thrown (some 401) →
      parseRows env.parseJson (getInvoicesByType db "sent" limit offset) = some items →
      (getSentInvoices env st db limit offset).1 = some items ∧
      ((getSentInvoices env st db limit offset).2.1).accessToken = none ∧
      ∀ t, isInitialized ((getSentInvoices env st db limit offset).2.1) t = false) ∧
    (∀ (denv : DetailsEnv) (st : KState),
      truthyStr st.accessToken = true →
      denv.detailsResp = RemoteResult.thrown (some 401) →
      getInvoiceDetails denv st = (none, st, [CallEvent.detailsCall])) := by
  refine ⟨?_, ?_, ?_⟩
  · intro env st db limit offset r0 items hhead hstale hinit hmeta hparse
    have hres := list401_helper "received" "Subject2" env st db limit offset r0 items
      hhead hstale hinit hmeta hparse
    have hres2 : getReceivedInvoices env st db limit offset =
        (some items, { st with accessToken := none }, db,
          [CallEvent.metadataCall "Subject2"]) := hres
    refine ⟨by rw [hres2], by rw [hres2], ?_⟩
    intro t
    rw [hres2]
    simp [isInitialized, truthyStr]
  · intro env st db limit offset r0 items hhead hstale hinit hmeta hparse
    have hres := list401_helper "sent" "Subject1" env st db limit offset r0 items
      hhead hstale hinit hmeta hparse
    have hres2 : getSentInvoices env st db limit offset =
        (some items, { st with accessToken := none }, db,
          [CallEvent.metadataCall "Subject1"]) := hres
    refine ⟨by rw [hres2], by rw [hres2], ?_⟩
    intro t
    rw [hres2]
    simp [isInitialized, truthyStr]
  · intro denv st hacc hresp
    unfold getInvoiceDetails
    rw [if_neg (not_not_intro hacc), hresp]

/-- C6 witness: on a stale cache and a 401 metadata response, the listing
clears the token and serves the cached row. -/
theorem c6_unauthorized_handling_witness :
    (getReceivedInvoices wit401ListEnv cexAuthedState witStaleDb 10 0).1 =
      some [InvItem.js "d1"] ∧
    ((getReceivedInvoices wit401ListEnv cexAuthedState witStaleDb 10 0).2.1).accessToken = none ∧
    ∀ t, isInitialized
      ((getReceivedInvoices wit401ListEnv cexAuthedState witStaleDb 10 0).2.1) t = false :=
  c6_unauthorized_handling.1 wit401ListEnv cexAuthedState witStaleDb 10 0
    { id := some "1", ty := "received", data := "d1", cached_at := 0 }
    [InvItem.js "d1"] (by decide) (by decide) (by decide) rfl (by decide)

/-- C6 counterexample: `getInvoiceDetails` is an authenticated downstream
call, yet a 401 response leaves the stored access token in place — the
session is not invalidated. -/
theorem c6_unauthorized_handling_counterexample :
    cexDetailsEnv.detailsResp = RemoteResult.thrown (some 401) ∧
    ((getInvoiceDetails cexDetailsEnv cexAuthedState).2.1).accessToken = some "tok" ∧
    (getInvoiceDetails cexDetailsEnv cexAuthedState).1 = none :=
  ⟨rfl, by decide, by decide⟩

/-- C8: whenever the cached page for a direction is non-empty and its
newest entry is within the 5-minute freshness window, the listing returns
exactly that cached page (parsed), changes nothing, and issues no network
call. -/
theorem c8_fresh_cache_short_circuit :
    (∀ (env : ListEnv) (st : KState) (db : DB) (limit offset : Nat)
        (r0 : CacheRow) (items : List InvItem),
      (getInvoicesByType db "received" limit offset).head? = some r0 →
      env.now - r0.cached_at < cacheExpirationMs →
      parseRows env.parseJson (getInvoicesByType db "received" limit offset) = some items →
      getReceivedInvoices env st db limit offset = (some items, st, db, [])) ∧
    (∀ (env : ListEnv) (st : KState) (db : DB) (limit offset : Nat)
        (r0 : CacheRow) (items : List InvItem),
      (getInvoicesByType db "sent" limit offset).head? = some r0 →
      env.now - r0.cached_at < cacheExpirationMs →
      parseRows env.parseJson (getInvoicesByType db "sent" limit offset) = some items →
      getSentInvoices env st db limit offset = (some items, st, db, [])) := by
  constructor
  · intro env st db limit offset r0 items hhead hfresh hparse
    exact listFresh_helper "received" "Subject2" env st db limit offset r0 items
      hhead hfresh hparse
  · intro env st db limit offset r0 items hhead hfresh hparse
    exact listFresh_helper "sent" "Subject1" env st db limit offset r0 items
      hhead hfresh hparse

/-- C8 witness: a page cached two minutes ago is served for both
directions with an empty network trace, even though the remote endpoint
would reject the call. -/
theorem c8_fresh_cache_short_circuit_witness :
    getReceivedInvoices wit401ListEnv cexAuthedState witFreshDb 10 0 =
      (some [InvItem.js "d1"], cexAuthedState, witFreshDb, []) ∧
    getSentInvoices wit401ListEnv cexAuthedState witFreshDb 10 0 =
      (some [InvItem.js "d2"], cexAuthedState, witFreshDb, []) :=
  ⟨c8_fresh_cache_short_circuit.1 wit401ListEnv cexAuthedState witFreshDb 10 0
      { id := some "1", ty := "received", data := "d1", cached_at := 999880000 }
      [InvItem.js "d1"] (by decide) (by decide) (by decide),
   c8_fresh_cache_short_circuit.2 wit401ListEnv cexAuthedState witFreshDb 10 0
      { id := some "2", ty := "sent", data := "d2", cached_at := 999880000 }
      [InvItem.js "d2"] (by decide) (by decide) (by decide)⟩

/-- C9 (amended): both listing methods always return a list — fresh,
cached fallback or empty — provided every cached row's serialized data
parses as JSON (which holds for every row the caching loop itself wrote);
the re-parse of a malformed cached row inside the catch block is the one
path on which an exception escapes. -/
theorem c9_listings_total (env : ListEnv) (st : KState) (db : DB) (limit offset : Nat)
    (h : ∀ r ∈ db, (env.parseJson r.data).isSome = true) :
    (getReceivedInvoices env st db limit offset).1.isSome = true ∧
    (getSentInvoices env st db limit offset).1.isSome = true :=
  ⟨listCore_isSome "received" "Subject2" env st db limit offset h,
   listCore_isSome "sent" "Subject1" env st db limit offset h⟩

/-- C9 witness: with parseable cached rows, both listings return a list
even though the remote call is rejected with a 401. -/
theorem c9_listings_total_witness :
    (getReceivedInvoices wit401ListEnv cexAuthedState witStaleDb 10 0).1.isSome = true ∧
    (getSentInvoices wit401ListEnv cexAuthedState witStaleDb 10 0).1.isSome = true :=
  c9_listings_total wit401ListEnv cexAuthedState witStaleDb 10 0 (fun _ _ => rfl)

/-- C9 counterexample: when the metadata call fails and the stale cached
row's data is not valid JSON, the catch-block re-parse throws and the
exception escapes the listing: no list is returned. -/
theorem c9_listings_total_counterexample :
    cexListEnv.metadataResp = RemoteResult.thrown none ∧
    cexListEnv.parseJson "x" = none ∧
    (getReceivedInvoices cexListEnv cexAuthedState cexBadRowDb 10 0).1 = none :=
  ⟨rfl, by decide, by decide⟩

end KSeF
